import Mathlib

/-!
Shallow embedding of the pycoalaip entity/model lifecycle
(`coalaip/entities.py` and `coalaip/models.py`).

Python dictionaries are embedded as association lists with unique-key
discipline (`Dict`), Python values as the closed universe `Val` of JSON
value shapes actually used by this library (strings, booleans, integers,
string lists for JSON-LD contexts, and null).  Exceptions are embedded
as an `Except Err` result; the Python `TypeError` raised when a required
keyword argument is missing is the `Err.typeError` constructor.  Methods
that mutate an object return the updated object explicitly.

Modules of the repository that are referenced but whose sources are not
available (`coalaip.data_formats`, `coalaip.utils`, `coalaip.plugin`,
`coalaip.exceptions`, `coalaip.context_urls`, `coalaip.model_validators`)
are modelled from the specification; each such definition carries a doc
comment starting with `Modelled from the spec:`.
-/

set_option autoImplicit false

namespace Coalaip

/-- JSON value shapes used by this library: null, booleans, integers,
strings and lists of strings (the shape of the default JSON-LD context). -/
inductive Val where
  | vNull
  | vBool (b : Bool)
  | vInt (n : Int)
  | vStr (s : String)
  | vStrList (l : List String)
  deriving DecidableEq, Repr

/-- Python truthiness of a `Val`: `None`, `False`, `0`, the empty string
and the empty list are falsy, everything else is truthy. -/
def Val.truthy : Val → Bool
  | .vNull => false
  | .vBool b => b
  | .vInt n => n != 0
  | .vStr s => !s.isEmpty
  | .vStrList l => !l.isEmpty

/-- A Python `dict` with string keys, embedded as an association list in
insertion order with at most one entry per key. -/
abbrev Dict := List (String × Val)

/-- `d[k]` lookup returning `none` when the key is absent. -/
def getKey : Dict → String → Option Val
  | [], _ => none
  | (k, v) :: rest, key => if k = key then some v else getKey rest key

/-- `d[k] = v`: update the existing entry in place (keeping its position,
as Python dicts do) or append a new entry at the end. -/
def setKey : Dict → String → Val → Dict
  | [], key, val => [(key, val)]
  | (k, v) :: rest, key, val =>
      if k = key then (k, val) :: rest else (k, v) :: setKey rest key val

/-- Remove the entry for a key, if present. -/
def removeKey (d : Dict) (key : String) : Dict :=
  d.filter (fun kv => kv.1 != key)

/-- Modelled from the spec: `extend_dict` from `coalaip.utils` (source not
available).  The spec describes its one use in this codebase (section
4.5): the Manifestation factory call `extend_dict({'isManifestation':
True}, data)` injects `isManifestation: true` into the data
unconditionally, for every input.  Accordingly the base entries are
merged into the extension with the base taking precedence, so an
injected base entry is present in the result whatever the extension. -/
def extend_dict (base extension : Dict) : Dict :=
  base.foldl (fun acc kv => setKey acc kv.1 kv.2) extension

/-- Modelled from the spec: the exception taxonomy of `coalaip.exceptions`
(source not available), spec section 7.  `entityCreation` carries its
wrapped cause; diagnostic message strings are elided.  `typeError` stands
for the Python `TypeError` raised when a call omits a required argument.
`backendError` stands for an arbitrary backend-defined failure. -/
inductive Err where
  | modelDataError
  | modelNotYetLoaded
  | entityNotYetPersisted
  | entityPreviouslyCreated (persistId : String)
  | entityCreation (cause : Err)
  | entityNotFound
  | entityError
  | notImplemented
  | unknownFormat
  | typeError
  | backendError (code : Nat)
  deriving DecidableEq, Repr

/-- The `DataFormat` enum of `coalaip.data_formats`. -/
inductive DataFormat where
  | json
  | jsonld
  | ipld
  deriving DecidableEq, Repr

/-- Which model class a factory instantiates (the `model_cls` keyword). -/
inductive ModelCls where
  | model
  | lazyLoadable
  deriving DecidableEq, Repr

/-- The concrete `Entity` subclass, used to embed Python method dispatch. -/
inductive Variant where
  | work
  | manifestation
  | right
  | copyright
  | rightsAssignment
  deriving DecidableEq, Repr

/-- Modelled from the spec: the COALA IP context URL from
`coalaip.context_urls` (source not available); the exact string is opaque
to the lifecycle logic. -/
def COALAIP : String := "<coalaip>"

/-- Modelled from the spec: the schema.org context URL from
`coalaip.context_urls` (source not available). -/
def SCHEMA : String := "<schema.org>"

/-- `get_default_ld_context` from `coalaip.models`: the COALA IP URL
followed by the schema.org URL. -/
def get_default_ld_context : Val := Val.vStrList [COALAIP, SCHEMA]

/-- The `ld_context or get_default_ld_context()` logic of
`LazyLoadableModel.__init__`: an absent or falsy context argument is
replaced by the default context. -/
def resolve_ld_context : Option Val → Val
  | some c => if c.truthy then c else get_default_ld_context
  | none => get_default_ld_context

/-- The record returned by `_extract_ld_data` (its fields, after
`_asdict`, are `data`, `ld_type`, `ld_context` and `ld_id`). -/
structure ExtractedLdData where
  data : Dict
  ld_type : Option Val
  ld_context : Option Val
  ld_id : Option Val
  deriving DecidableEq, Repr

/-- Modelled from the spec: `_extract_ld_data` from
`coalaip.data_formats` (source not available), spec section 4.2.
For `jsonld` it moves `@type`, `@context` and `@id` out of the mapping;
for `json` it moves `type` out; absent keys map to `none`, and a
present-but-empty value is preserved.  For `ipld` it is unimplemented. -/
def _extract_ld_data (fmt : DataFormat) (d : Dict) : Except Err ExtractedLdData :=
  match fmt with
  | .jsonld =>
      .ok ⟨removeKey (removeKey (removeKey d "@type") "@context") "@id",
           getKey d "@type", getKey d "@context", getKey d "@id"⟩
  | .json =>
      .ok ⟨removeKey d "type", getKey d "type", none, none⟩
  | .ipld => .error Err.notImplemented

/-- Modelled from the spec: the persistence plugin interface of
`coalaip.plugin` (source not available), spec section 6.  Each operation
is a pure function returning `Except Err`; per the spec, `save` may fail
with a backend-defined error. -/
structure AbstractPlugin where
  save : Dict → String → Except Err String
  load : String → Except Err Dict
  get_status : String → Except Err Val
  transfer : String → Option Dict → String → String → Except Err Val

/-- The immutable `Model` of `coalaip.models`: validated data plus its
Linked Data type and context and the validator used to check the data. -/
structure Model where
  data : Dict
  ld_type : String
  ld_context : Val
  validator : Dict → Bool

/-- The `Model` constructor: runs `validator` on `data` (failing with
`ModelDataError` on rejection), checks that `ld_type` is a string
(`attr.validators.instance_of(str)`, failing with `TypeError` otherwise),
and defaults an absent `ld_context` to the default context. -/
def Model.mk? (data : Dict) (ld_type : Val) (ld_context : Option Val)
    (validator : Dict → Bool) : Except Err Model :=
  if validator data then
    match ld_type with
    | .vStr s => .ok (Model.mk data s (ld_context.getD get_default_ld_context) validator)
    | _ => .error Err.typeError
  else .error Err.modelDataError

/-- The `LazyLoadableModel` of `coalaip.models`: fixed type, context and
validator plus an optional `loaded_model`, absent until loaded. -/
structure LazyLoadableModel where
  ld_type : String
  ld_context : Val
  validator : Dict → Bool
  loaded_model : Option Model

/-- `LazyLoadableModel.__init__`: checks `ld_type` is a string, replaces
an absent or falsy `ld_context` by the default, and — only when `data`
is truthy (present and non-empty) — pre-populates `loaded_model` with a
`Model` built from `data` (which validates and may fail). -/
def LazyLoadableModel.mk? (ld_type : Val) (ld_context : Option Val)
    (validator : Dict → Bool) (data : Option Dict) : Except Err LazyLoadableModel :=
  match ld_type with
  | .vStr s =>
      let ctx := resolve_ld_context ld_context
      match data with
      | some d =>
          if d.isEmpty then .ok (LazyLoadableModel.mk s ctx validator none)
          else
            (Model.mk? d (Val.vStr s) (some ctx) validator).map
              (fun mo => LazyLoadableModel.mk s ctx validator (some mo))
      | none => .ok (LazyLoadableModel.mk s ctx validator none)
  | _ => .error Err.typeError

/-- The `LazyLoadableModel.data` property: fails with
`ModelNotYetLoadedError` while no model has been loaded. -/
def LazyLoadableModel.data : LazyLoadableModel → Except Err Dict
  | ⟨_, _, _, none⟩ => .error Err.modelNotYetLoaded
  | ⟨_, _, _, some mo⟩ => .ok mo.data

/-- The `loaded_type and loaded_type != self.ld_type` guard of
`LazyLoadableModel.load`: true when the extracted type is present,
truthy, and differs from the fixed type of the model. -/
def type_mismatch (m : LazyLoadableModel) (ext : ExtractedLdData) : Bool :=
  match ext.ld_type with
  | some t => t.truthy && !(t == Val.vStr m.ld_type)
  | none => false

/-- The `loaded_context and loaded_context != self.ld_context` guard of
`LazyLoadableModel.load`: true when the extracted context is present,
truthy, and structurally different from the fixed context of the model. -/
def context_mismatch (m : LazyLoadableModel) (ext : ExtractedLdData) : Bool :=
  match ext.ld_context with
  | some c => c.truthy && !(c == m.ld_context)
  | none => false

/-- `LazyLoadableModel.load`: a no-op if already loaded, otherwise fetch
the persisted data through the plugin, extract its Linked Data fields
(jsonld format), sanity-check the extracted type and context against the
fixed ones, and build the inner `Model` from the extracted data with the
fixed type, context and validator.  The returned `Nat` counts the
`plugin.load` fetches performed by the call (0 or 1). -/
def LazyLoadableModel.load (m : LazyLoadableModel) (persist_id : String)
    (plugin : AbstractPlugin) : Except Err (LazyLoadableModel × Nat) :=
  match m.loaded_model with
  | some _ => .ok (m, 0)
  | none =>
      match plugin.load persist_id with
      | .error err => .error err
      | .ok persist_data =>
          match _extract_ld_data DataFormat.jsonld persist_data with
          | .error err => .error err
          | .ok ext =>
              if type_mismatch m ext then .error Err.modelDataError
              else if context_mismatch m ext then .error Err.modelDataError
              else
                (Model.mk? ext.data (Val.vStr m.ld_type) (some m.ld_context) m.validator).map
                  (fun mo => (LazyLoadableModel.mk m.ld_type m.ld_context m.validator (some mo), 1))

/-- Modelled from the spec: `attr.validators.instance_of(dict)`, the
default validator of both model classes; every embedded `Dict` is a
dict, so it always passes. -/
def instance_of_dict : Dict → Bool := fun _ => true

/-- `_model_factory` from `coalaip.models`.  Its `data` parameter is a
required keyword-only argument: a call that does not supply it raises
`TypeError`.  `model_cls` defaults to `Model`. -/
def _model_factory (data : Option Dict) (model_cls : Option ModelCls)
    (ld_type : Val) (ld_context : Option Val) (validator : Dict → Bool) :
    Except Err (Sum Model LazyLoadableModel) :=
  match data with
  | none => .error Err.typeError
  | some d =>
      match model_cls.getD ModelCls.model with
      | .model => (Model.mk? d ld_type ld_context validator).map Sum.inl
      | .lazyLoadable =>
          (LazyLoadableModel.mk? ld_type ld_context validator (some d)).map Sum.inr

/-- `work_model_factory`: forces `ld_type` to `CreativeWork`, overriding
any caller-supplied type.  `validator` stands for the default
`is_work_model` predicate (from `coalaip.model_validators`, whose source
is not available; the spec treats the field-level validators as
pluggable predicates, so it is threaded as a parameter). -/
def work_model_factory (validator : Dict → Bool) (data : Option Dict)
    (ld_context : Option Val) (model_cls : Option ModelCls) :
    Except Err (Sum Model LazyLoadableModel) :=
  _model_factory data model_cls (Val.vStr "CreativeWork") ld_context validator

/-- `manifestation_model_factory`: requires `data` (a call without it
raises `TypeError`), extends `{isManifestation: true}` with it, and
defaults `ld_type` to `CreativeWork`. -/
def manifestation_model_factory (validator : Dict → Bool) (data : Option Dict)
    (ld_type : Option Val) (ld_context : Option Val) (model_cls : Option ModelCls) :
    Except Err (Sum Model LazyLoadableModel) :=
  match data with
  | none => .error Err.typeError
  | some d =>
      _model_factory (some (extend_dict [("isManifestation", Val.vBool true)] d))
        model_cls (ld_type.getD (Val.vStr "CreativeWork")) ld_context validator

/-- `right_model_factory`: defaults `ld_type` to `Right` and
`ld_context` to the COALA IP context only. -/
def right_model_factory (validator : Dict → Bool) (data : Option Dict)
    (ld_type : Option Val) (ld_context : Option Val) (model_cls : Option ModelCls) :
    Except Err (Sum Model LazyLoadableModel) :=
  _model_factory data model_cls (ld_type.getD (Val.vStr "Right"))
    (some (ld_context.getD (Val.vStr COALAIP))) validator

/-- `copyright_model_factory`: forces `ld_type` to `Copyright` and
defaults `ld_context` to the COALA IP context only. -/
def copyright_model_factory (validator : Dict → Bool) (data : Option Dict)
    (ld_context : Option Val) (model_cls : Option ModelCls) :
    Except Err (Sum Model LazyLoadableModel) :=
  _model_factory data model_cls (Val.vStr "Copyright")
    (some (ld_context.getD (Val.vStr COALAIP))) validator

/-- `rights_assignment_model_factory`: forces `ld_type` to
`RightsTransferAction`, defaults `ld_context` to the COALA IP context
only, and passes no validator (so the model uses its
`instance_of(dict)` default). -/
def rights_assignment_model_factory (data : Option Dict)
    (ld_context : Option Val) (model_cls : Option ModelCls) :
    Except Err (Sum Model LazyLoadableModel) :=
  _model_factory data model_cls (Val.vStr "RightsTransferAction")
    (some (ld_context.getD (Val.vStr COALAIP))) instance_of_dict

/-- The polymorphic `generate_model` classmethod: dispatches to the
model factory of the concrete entity variant.  `validator` stands for
the default validator of the variant (pluggable predicate, see
`work_model_factory`); the rights-assignment factory takes none. -/
def generate_model (v : Variant) (validator : Dict → Bool) (data : Option Dict)
    (ld_type : Option Val) (ld_context : Option Val) (model_cls : Option ModelCls) :
    Except Err (Sum Model LazyLoadableModel) :=
  match v with
  | .work => work_model_factory validator data ld_context model_cls
  | .manifestation => manifestation_model_factory validator data ld_type ld_context model_cls
  | .right => right_model_factory validator data ld_type ld_context model_cls
  | .copyright => copyright_model_factory validator data ld_context model_cls
  | .rightsAssignment => rights_assignment_model_factory data ld_context model_cls

/-- The model held by an entity: a `Model` or a `LazyLoadableModel`. -/
abbrev EModel := Sum Model LazyLoadableModel

/-- `self.model.ld_type`, defined on both model classes. -/
def EModel.ld_type : EModel → String
  | .inl m => m.ld_type
  | .inr m => m.ld_type

/-- `self.model.ld_context`, defined on both model classes. -/
def EModel.ld_context : EModel → Val
  | .inl m => m.ld_context
  | .inr m => m.ld_context

/-- `self.model.data`: total on `Model`, fails with
`ModelNotYetLoadedError` on an empty `LazyLoadableModel`. -/
def EModel.data : EModel → Except Err Dict
  | .inl m => .ok m.data
  | .inr m => m.data

/-- The `Entity` of `coalaip.entities`: a model, a plugin reference and
an optional persisted id (absent until `create`).  The `variant` field
embeds the dynamic class of the instance, for method dispatch. -/
structure Entity where
  model : EModel
  plugin : AbstractPlugin
  persist_id : Option String
  variant : Variant

/-- `Entity.load`: a no-op when the model has no `load` attribute (a
plain `Model`); otherwise it requires `persist_id` to be set and then
executes `self.model.load()`.  That call omits the required
`persist_id` positional argument and `plugin` keyword argument of
`LazyLoadableModel.load`, so it raises `TypeError`. -/
def Entity.load (e : Entity) : Except Err Entity :=
  match e.model with
  | .inl _ => .ok e
  | .inr _ =>
      match e.persist_id with
      | none => .error Err.entityNotYetPersisted
      | some _ => .error Err.typeError

/-- The `Entity.data` property: returns the model data, converting a
`ModelNotYetLoadedError` into an implicit `self.load()` attempt followed
by a second read of the model data. -/
def Entity.data (e : Entity) : Except Err Dict :=
  match EModel.data e.model with
  | .ok d => .ok d
  | .error Err.modelNotYetLoaded =>
      match Entity.load e with
      | .error err => .error err
      | .ok e2 => EModel.data e2.model
  | .error err => .error err

/-- The `Entity.status` property: `None` while unpersisted, otherwise
the plugin status of the persisted id. -/
def Entity.status (e : Entity) : Except Err (Option Val) :=
  match e.persist_id with
  | none => .ok none
  | some pid => (e.plugin.get_status pid).map some

/-- `Entity.to_json`: a copy of the entity data with `type` set to the
model type; the context is ignored. -/
def Entity.to_json (e : Entity) : Except Err Dict :=
  (Entity.data e).map (fun d => setKey d "type" (Val.vStr (EModel.ld_type e.model)))

/-- `Entity.to_jsonld`: a copy of the entity data with `@context`,
`@type` and an empty `@id` added. -/
def Entity.to_jsonld (e : Entity) : Except Err Dict :=
  (Entity.data e).map (fun d =>
    setKey (setKey (setKey d "@context" (EModel.ld_context e.model))
        "@type" (Val.vStr (EModel.ld_type e.model)))
      "@id" (Val.vStr ""))

/-- `Entity.to_ipld`: unimplemented. -/
def Entity.to_ipld (_e : Entity) : Except Err Dict :=
  .error Err.notImplemented

/-- `Entity._to_format`: dispatch the serialization on the data format. -/
def Entity.to_format (e : Entity) (data_format : DataFormat) : Except Err Dict :=
  match data_format with
  | .jsonld => Entity.to_jsonld e
  | .json => Entity.to_json e
  | .ipld => Entity.to_ipld e

/-- `Entity.from_data`: extract the Linked Data fields of `data` per the
format (`ipld` is unimplemented), drop absent fields and the extracted
`ld_id`, generate the model through the variant factory (with the
default `Model` class), and wrap it with the plugin; `persist_id` starts
absent. -/
def Entity.from_data (v : Variant) (validator : Dict → Bool) (data : Dict)
    (data_format : DataFormat) (plugin : AbstractPlugin) : Except Err Entity :=
  match data_format with
  | .ipld => .error Err.notImplemented
  | fmt =>
      match _extract_ld_data fmt data with
      | .error err => .error err
      | .ok ext =>
          match generate_model v validator (some ext.data) ext.ld_type ext.ld_context none with
          | .error err => .error err
          | .ok model => .ok (Entity.mk model plugin none v)

/-- `Entity.from_persist_id`: generate a model through the variant
factory with `model_cls=LazyLoadableModel` and no other argument, wrap
it with the plugin, set `persist_id` immediately, and load when
`force_load` is set.  Because `generate_model` forwards no `data`
argument while `_model_factory` requires one, the factory call raises
`TypeError` for every variant. -/
def Entity.from_persist_id (v : Variant) (validator : Dict → Bool)
    (persist_id : String) (force_load : Bool) (plugin : AbstractPlugin) :
    Except Err Entity :=
  match generate_model v validator none none none (some ModelCls.lazyLoadable) with
  | .error err => .error err
  | .ok model =>
      let entity := Entity.mk model plugin (some persist_id) v
      if force_load then Entity.load entity else .ok entity

/-- `Entity.create`: fails with `EntityPreviouslyCreatedError` (carrying
the existing id) when `persist_id` is already set; otherwise serializes
the entity per the format, saves it through the plugin (a save failure
propagates as raised, and `persist_id` stays absent), then stores the
returned id as `persist_id` and returns it.  The second component is the
entity state after the call. -/
def Entity.create (e : Entity) (user : String) (data_format : DataFormat) :
    Except Err String × Entity :=
  match e.persist_id with
  | some pid => (.error (Err.entityPreviouslyCreated pid), e)
  | none =>
      match Entity.to_format e data_format with
      | .error err => (.error err, e)
      | .ok entity_data =>
          match e.plugin.save entity_data user with
          | .error err => (.error err, e)
          | .ok create_id =>
              (.ok create_id, Entity.mk e.model e.plugin (some create_id) e.variant)

/-- `RightsAssignment.create`: always fails with `EntityError`;
rights assignments can only be persisted through transfers. -/
def RightsAssignment.create (e : Entity) (_user : String)
    (_data_format : DataFormat) : Except Err String × Entity :=
  (.error Err.entityError, e)

/-- Python method dispatch for `create`: the `RightsAssignment` subclass
overrides it, every other variant uses the base implementation. -/
def create_dispatch (e : Entity) (user : String) (data_format : DataFormat) :
    Except Err String × Entity :=
  match e.variant with
  | .rightsAssignment => RightsAssignment.create e user data_format
  | _ => Entity.create e user data_format

/-- True exactly when a create result failed with `EntityCreationError`. -/
def isEntityCreation : Except Err String → Bool
  | .error (.entityCreation _) => true
  | _ => false

/-- A validator accepting every dict (used by the concrete instances
below). -/
def always_valid : Dict → Bool := fun _ => true

/-- A plugin whose save always yields the id `id1` and whose load always
yields the mapping `{name: x}`. -/
def cP1 : AbstractPlugin :=
  AbstractPlugin.mk (fun _ _ => .ok "id1") (fun _ => .ok [("name", Val.vStr "x")])
    (fun _ => .ok Val.vNull) (fun _ _ _ _ => .ok Val.vNull)

/-- A plugin whose save always fails with a backend-defined error. -/
def cPfail : AbstractPlugin :=
  AbstractPlugin.mk (fun _ _ => .error (Err.backendError 7)) (fun _ => .ok [])
    (fun _ => .ok Val.vNull) (fun _ _ _ _ => .ok Val.vNull)

/-- A plugin whose load yields a mapping with a present but empty
`@type`. -/
def cPblank : AbstractPlugin :=
  AbstractPlugin.mk (fun _ _ => .ok "id1")
    (fun _ => .ok [("@type", Val.vStr ""), ("name", Val.vStr "x")])
    (fun _ => .ok Val.vNull) (fun _ _ _ _ => .ok Val.vNull)

/-- A plugin whose load yields a mapping with a truthy `@type` that
differs from `CreativeWork`. -/
def cPother : AbstractPlugin :=
  AbstractPlugin.mk (fun _ _ => .ok "id1")
    (fun _ => .ok [("@type", Val.vStr "Other")])
    (fun _ => .ok Val.vNull) (fun _ _ _ _ => .ok Val.vNull)

/-- A concrete loaded work model. -/
def cM1 : Model :=
  Model.mk [("name", Val.vStr "x")] "CreativeWork" get_default_ld_context always_valid

/-- A concrete unpersisted Work entity over `cP1`. -/
def cEnt1 : Entity := Entity.mk (Sum.inl cM1) cP1 none Variant.work

/-- `cEnt1` after a successful create returning `id1`. -/
def cEnt1' : Entity := Entity.mk (Sum.inl cM1) cP1 (some "id1") Variant.work

/-- A concrete unpersisted Work entity over the failing plugin. -/
def cEnt3 : Entity := Entity.mk (Sum.inl cM1) cPfail none Variant.work

/-- A concrete unpersisted RightsAssignment entity. -/
def cEnt7 : Entity := Entity.mk (Sum.inl cM1) cP1 none Variant.rightsAssignment

/-- A concrete Work entity generated by `from_data` on
`{name: Ayy}`. -/
def cE8 : Entity :=
  Entity.mk
    (Sum.inl (Model.mk [("name", Val.vStr "Ayy")] "CreativeWork"
      get_default_ld_context always_valid))
    cP1 none Variant.work

/-- An empty lazy-loadable CreativeWork model. -/
def emptyCreativeWork : LazyLoadableModel :=
  LazyLoadableModel.mk "CreativeWork" get_default_ld_context always_valid none

/-- `emptyCreativeWork` after loading the mapping `{name: x}`. -/
def loadedCreativeWork : LazyLoadableModel :=
  LazyLoadableModel.mk "CreativeWork" get_default_ld_context always_valid
    (some (Model.mk [("name", Val.vStr "x")] "CreativeWork"
      get_default_ld_context always_valid))

/-! Helper lemmas about the dictionary embedding and the model
constructor. -/

theorem Model.mk?_valid {d : Dict} {lt : String} {ctx : Option Val}
    {va : Dict → Bool} (h : va d = true) :
    Model.mk? d (Val.vStr lt) ctx va
      = .ok (Model.mk d lt (ctx.getD get_default_ld_context) va) := by
  unfold Model.mk?
  rw [h]
  rfl

theorem getKey_setKey_self (d : Dict) (k : String) (v : Val) :
    getKey (setKey d k v) k = some v := by
  induction d with
  | nil => simp [setKey, getKey]
  | cons kv rest ih =>
      obtain ⟨k', v'⟩ := kv
      by_cases h : k' = k
      · simp [setKey, getKey, h]
      · simp [setKey, getKey, h, ih]

theorem getKey_setKey_ne (d : Dict) (k key : String) (v : Val) (h : key ≠ k) :
    getKey (setKey d k v) key = getKey d key := by
  induction d with
  | nil => simp [setKey, getKey, Ne.symm h]
  | cons kv rest ih =>
      obtain ⟨k', v'⟩ := kv
      by_cases hk : k' = k
      · subst hk
        simp [setKey, getKey, Ne.symm h]
      · by_cases hq : k' = key
        · simp [setKey, getKey, hk, hq, h]
        · simp [setKey, getKey, hk, hq, ih]

theorem getKey_extend_dict_base_single (d : Dict) (k : String) (v : Val) :
    getKey (extend_dict [(k, v)] d) k = some v :=
  getKey_setKey_self d k v

/-! Claim theorems. -/

/-- C2 (code bug): the claim says `from_persist_id` builds an entity
with a fresh empty `LazyLoadableModel` whose first data access triggers
exactly one plugin load; instead, for every variant, the call raises
`TypeError` because `generate_model(model_cls=LazyLoadableModel)`
forwards no `data` argument while `_model_factory` declares `data` as a
required keyword-only parameter (and even a lazily built entity could
never load, as `Entity.load` calls `self.model.load()` without the
required `persist_id` and `plugin` arguments). -/
theorem from_persist_id_raises_type_error (v : Variant) (validator : Dict → Bool)
    (pid : String) (force_load : Bool) (plugin : AbstractPlugin) :
    Entity.from_persist_id v validator pid force_load plugin
      = .error Err.typeError := by
  cases v <;> rfl

/-- C7: calling `create` on a RightsAssignment entity always fails with
`EntityError`, for every user and data format, leaving the entity
unchanged. -/
theorem rights_assignment_create_fails (e : Entity) (user : String)
    (fmt : DataFormat) (h : e.variant = Variant.rightsAssignment) :
    create_dispatch e user fmt = (.error Err.entityError, e) := by
  unfold create_dispatch
  rw [h]
  rfl

/-- C7 witness: a concrete RightsAssignment entity. -/
theorem rights_assignment_create_fails_witness :
    create_dispatch cEnt7 "u" DataFormat.jsonld = (.error Err.entityError, cEnt7) :=
  rights_assignment_create_fails cEnt7 "u" DataFormat.jsonld rfl

/-- C10: constructing a `LazyLoadableModel` with the empty dict as data
leaves `loaded_model` absent (the truthiness test treats the empty dict
like absent data) and its data access fails with
`ModelNotYetLoadedError`, while constructing it with a non-empty dict
the validator accepts immediately yields a loaded model whose data is
the given dict. -/
theorem lazy_model_empty_dict_not_loaded (lt : String) (ctx : Option Val)
    (va : Dict → Bool) (d : Dict) (hd : d.isEmpty = false) (hv : va d = true) :
    LazyLoadableModel.mk? (Val.vStr lt) ctx va (some [])
      = .ok (LazyLoadableModel.mk lt (resolve_ld_context ctx) va none) ∧
    LazyLoadableModel.data (LazyLoadableModel.mk lt (resolve_ld_context ctx) va none)
      = .error Err.modelNotYetLoaded ∧
    LazyLoadableModel.mk? (Val.vStr lt) ctx va (some d)
      = .ok (LazyLoadableModel.mk lt (resolve_ld_context ctx) va
          (some (Model.mk d lt (resolve_ld_context ctx) va))) ∧
    LazyLoadableModel.data (LazyLoadableModel.mk lt (resolve_ld_context ctx) va
          (some (Model.mk d lt (resolve_ld_context ctx) va)))
      = .ok d := by
  refine ⟨rfl, rfl, ?_, rfl⟩
  unfold LazyLoadableModel.mk?
  show (if List.isEmpty d = true then
      Except.ok (LazyLoadableModel.mk lt (resolve_ld_context ctx) va none)
    else
      Except.map (fun mo => LazyLoadableModel.mk lt (resolve_ld_context ctx) va (some mo))
        (Model.mk? d (Val.vStr lt) (some (resolve_ld_context ctx)) va))
    = Except.ok (LazyLoadableModel.mk lt (resolve_ld_context ctx) va
        (some (Model.mk d lt (resolve_ld_context ctx) va)))
  rw [hd]
  simp only [Bool.false_eq_true, if_false]
  rw [Model.mk?_valid hv]
  rfl

/-- C10 witness: the empty dict versus the mapping `{name: x}`. -/
theorem lazy_model_empty_dict_not_loaded_witness :
    LazyLoadableModel.mk? (Val.vStr "W") none always_valid (some [])
      = .ok (LazyLoadableModel.mk "W" get_default_ld_context always_valid none) ∧
    LazyLoadableModel.data (LazyLoadableModel.mk "W" get_default_ld_context always_valid none)
      = .error Err.modelNotYetLoaded ∧
    LazyLoadableModel.mk? (Val.vStr "W") none always_valid (some [("name", Val.vStr "x")])
      = .ok (LazyLoadableModel.mk "W" get_default_ld_context always_valid
          (some (Model.mk [("name", Val.vStr "x")] "W" get_default_ld_context always_valid))) ∧
    LazyLoadableModel.data (LazyLoadableModel.mk "W" get_default_ld_context always_valid
          (some (Model.mk [("name", Val.vStr "x")] "W" get_default_ld_context always_valid)))
      = .ok [("name", Val.vStr "x")] := by
  have h := lazy_model_empty_dict_not_loaded "W" none always_valid
    [("name", Val.vStr "x")] rfl rfl
  exact ⟨h.1, h.2.1, h.2.2.1, h.2.2.2⟩

/-- C3 counterexample: with a plugin whose save fails with a
backend-defined error, `create` propagates that error as-is rather than
wrapping it in `EntityCreationError` (the wrapping the claim describes
does not happen in `create`). -/
theorem create_save_failure_not_wrapped_cex :
    Entity.create cEnt3 "u" DataFormat.jsonld = (.error (Err.backendError 7), cEnt3) ∧
    isEntityCreation (Entity.create cEnt3 "u" DataFormat.jsonld).1 = false ∧
    (Entity.create cEnt3 "u" DataFormat.jsonld).2.persist_id = none :=
  ⟨rfl, rfl, rfl⟩

/-- C3 (amended): if the plugin save fails during `create`, the failure
propagates to the caller unchanged (no wrapping is performed in
`create`; raising `EntityCreationError` is the plugin contract), and the
entity keeps `persist_id` unset — no partial state. -/
theorem create_save_failure_propagates_unwrapped (e : Entity) (user : String)
    (fmt : DataFormat) (d : Dict) (err : Err)
    (h0 : e.persist_id = none) (h1 : Entity.to_format e fmt = .ok d)
    (h2 : e.plugin.save d user = .error err) :
    Entity.create e user fmt = (.error err, e) ∧
    (Entity.create e user fmt).2.persist_id = none := by
  have hc : Entity.create e user fmt = (.error err, e) := by
    unfold Entity.create
    simp only [h0, h1, h2]
  exact ⟨hc, by rw [hc]; exact h0⟩

/-- C3 witness: the concrete failing plugin. -/
theorem create_save_failure_propagates_unwrapped_witness :
    Entity.create cEnt3 "u" DataFormat.jsonld = (.error (Err.backendError 7), cEnt3) ∧
    (Entity.create cEnt3 "u" DataFormat.jsonld).2.persist_id = none :=
  create_save_failure_propagates_unwrapped cEnt3 "u" DataFormat.jsonld
    [("name", Val.vStr "x"), ("@context", get_default_ld_context),
     ("@type", Val.vStr "CreativeWork"), ("@id", Val.vStr "")]
    (Err.backendError 7) rfl rfl rfl

theorem create_dispatch_eq_base (e : Entity) (u : String) (f : DataFormat)
    (h : e.variant ≠ Variant.rightsAssignment) :
    create_dispatch e u f = Entity.create e u f := by
  unfold create_dispatch
  cases hv : e.variant
  case rightsAssignment => exact absurd hv h
  all_goals rfl

/-- C1: when a call to `create` has succeeded and returned an id, that
id is stored as the persisted id of the entity, and any further `create`
call on the resulting entity fails with `EntityPreviouslyCreatedError`
carrying that id while leaving the entity (and so its persisted id)
unchanged. -/
theorem create_twice_fails_previously_created (e e' : Entity)
    (u u2 : String) (f f2 : DataFormat) (pid : String)
    (h : create_dispatch e u f = (.ok pid, e')) :
    e'.persist_id = some pid ∧
    create_dispatch e' u2 f2 = (.error (Err.entityPreviouslyCreated pid), e') := by
  by_cases hv : e.variant = Variant.rightsAssignment
  · unfold create_dispatch at h
    rw [hv] at h
    exact absurd h (by simp [RightsAssignment.create])
  · rw [create_dispatch_eq_base e u f hv] at h
    unfold Entity.create at h
    cases hp : e.persist_id with
    | some pid0 =>
        simp only [hp] at h
        exact absurd h (by simp)
    | none =>
        simp only [hp] at h
        cases htf : Entity.to_format e f with
        | error err =>
            simp only [htf] at h
            exact absurd h (by simp)
        | ok dd =>
            simp only [htf] at h
            cases hs : e.plugin.save dd u with
            | error err =>
                simp only [hs] at h
                exact absurd h (by simp)
            | ok cid =>
                simp only [hs] at h
                obtain ⟨hpid, hent⟩ : cid = pid ∧
                    Entity.mk e.model e.plugin (some cid) e.variant = e' := by
                  simpa using h
                subst hpid
                subst hent
                refine ⟨rfl, ?_⟩
                have hv2 : (Entity.mk e.model e.plugin (some cid) e.variant).variant
                    ≠ Variant.rightsAssignment := hv
                rw [create_dispatch_eq_base
                  (Entity.mk e.model e.plugin (some cid) e.variant) u2 f2 hv2]
                rfl

/-- C1 witness: a concrete Work entity created twice. -/
theorem create_twice_fails_previously_created_witness :
    create_dispatch cEnt1 "u" DataFormat.jsonld = (.ok "id1", cEnt1') ∧
    cEnt1'.persist_id = some "id1" ∧
    create_dispatch cEnt1' "u2" DataFormat.json
      = (.error (Err.entityPreviouslyCreated "id1"), cEnt1') := by
  have h0 : create_dispatch cEnt1 "u" DataFormat.jsonld = (.ok "id1", cEnt1') := rfl
  have h := create_twice_fails_previously_created cEnt1 cEnt1' "u" "u2"
    DataFormat.jsonld DataFormat.json "id1" h0
  exact ⟨h0, h.1, h.2⟩

/-- C4: a successful `LazyLoadableModel.load` performs at most one
plugin fetch (exactly one when the model started empty), leaves the
model loaded, and a second `load` with the same id and plugin is a no-op
performing zero fetches and returning the very same model (so the same
data). -/
theorem lazy_load_idempotent (m m1 : LazyLoadableModel) (pid : String)
    (p : AbstractPlugin) (n : Nat)
    (h : LazyLoadableModel.load m pid p = .ok (m1, n)) :
    n ≤ 1 ∧ (m.loaded_model = none → n = 1) ∧
    m1.loaded_model.isSome = true ∧
    LazyLoadableModel.load m1 pid p = .ok (m1, 0) := by
  cases hm : m.loaded_model with
  | some mo =>
      unfold LazyLoadableModel.load at h
      simp only [hm] at h
      obtain ⟨hm1, hn⟩ : m = m1 ∧ 0 = n := by simpa using h
      subst hm1
      subst hn
      refine ⟨by omega, ?_, ?_, ?_⟩
      · intro hh
        exact absurd hh (by simp)
      · rw [hm]
        rfl
      · unfold LazyLoadableModel.load
        simp only [hm]
  | none =>
      unfold LazyLoadableModel.load at h
      simp only [hm] at h
      cases hpl : p.load pid with
      | error err =>
          simp only [hpl] at h
          exact absurd h (by simp)
      | ok raw =>
          simp only [hpl, _extract_ld_data] at h
          split at h
          · exact absurd h (by simp)
          · split at h
            · exact absurd h (by simp)
            · cases hmk : Model.mk? (removeKey (removeKey (removeKey raw "@type") "@context") "@id")
                  (Val.vStr m.ld_type) (some m.ld_context) m.validator with
              | error err =>
                  rw [hmk] at h
                  exact absurd h (by simp [Except.map])
              | ok mo =>
                  rw [hmk] at h
                  obtain ⟨hm1, hn⟩ : LazyLoadableModel.mk m.ld_type m.ld_context m.validator (some mo) = m1 ∧ 1 = n := by
                    simpa [Except.map] using h
                  subst hm1
                  subst hn
                  refine ⟨by omega, fun _ => rfl, rfl, ?_⟩
                  unfold LazyLoadableModel.load
                  rfl

/-- C4 witness: loading an empty CreativeWork model twice through the
concrete plugin. -/
theorem lazy_load_idempotent_witness :
    LazyLoadableModel.load emptyCreativeWork "id" cP1 = .ok (loadedCreativeWork, 1) ∧
    loadedCreativeWork.loaded_model.isSome = true ∧
    LazyLoadableModel.load loadedCreativeWork "id" cP1 = .ok (loadedCreativeWork, 0) := by
  have h0 : LazyLoadableModel.load emptyCreativeWork "id" cP1
      = .ok (loadedCreativeWork, 1) := rfl
  have h := lazy_load_idempotent emptyCreativeWork loadedCreativeWork "id" cP1 1 h0
  exact ⟨h0, h.2.2.1, h.2.2.2⟩

/-- C5 counterexample: loading persisted data whose `@type` is present
but is the empty string (which extraction preserves) does not fail with
`ModelDataError` even though that type differs from the model type
`CreativeWork` — the guard tests Python truthiness, not presence, so the
load succeeds. -/
theorem load_blank_type_skips_check_cex :
    (_extract_ld_data DataFormat.jsonld
        [("@type", Val.vStr ""), ("name", Val.vStr "x")]).map ExtractedLdData.ld_type
      = .ok (some (Val.vStr "")) ∧
    Val.vStr "" ≠ Val.vStr "CreativeWork" ∧
    LazyLoadableModel.load emptyCreativeWork "id" cPblank
      = .ok (loadedCreativeWork, 1) :=
  ⟨rfl, by decide, rfl⟩

/-- C5 (amended): during `LazyLoadableModel.load` on an empty model, if
the extracted type is present, truthy (non-empty) and differs from the
fixed model type, the load fails with `ModelDataError`; the same check,
with structural equality, applies to the extracted context; an absent
extracted type or context passes its check; and when both checks pass
the inner `Model` is constructed from the extracted data with the fixed
type, context and validator. -/
theorem load_type_context_check (m : LazyLoadableModel) (pid : String)
    (p : AbstractPlugin) (raw : Dict) (ext : ExtractedLdData)
    (hempty : m.loaded_model = none) (hload : p.load pid = .ok raw)
    (hext : _extract_ld_data DataFormat.jsonld raw = .ok ext) :
    (ext.ld_type = none → type_mismatch m ext = false) ∧
    (ext.ld_context = none → context_mismatch m ext = false) ∧
    (type_mismatch m ext = true →
      LazyLoadableModel.load m pid p = .error Err.modelDataError) ∧
    (type_mismatch m ext = false → context_mismatch m ext = true →
      LazyLoadableModel.load m pid p = .error Err.modelDataError) ∧
    (type_mismatch m ext = false → context_mismatch m ext = false →
      LazyLoadableModel.load m pid p
        = (Model.mk? ext.data (Val.vStr m.ld_type) (some m.ld_context) m.validator).map
            (fun mo => (LazyLoadableModel.mk m.ld_type m.ld_context m.validator (some mo), 1))) := by
  have hstep : LazyLoadableModel.load m pid p
      = (if type_mismatch m ext then
          (.error Err.modelDataError : Except Err (LazyLoadableModel × Nat))
         else if context_mismatch m ext then .error Err.modelDataError
         else (Model.mk? ext.data (Val.vStr m.ld_type) (some m.ld_context) m.validator).map
            (fun mo => (LazyLoadableModel.mk m.ld_type m.ld_context m.validator (some mo), 1))) := by
    unfold LazyLoadableModel.load
    simp only [hempty, hload, hext]
  refine ⟨?_, ?_, ?_, ?_, ?_⟩
  · intro h0
    unfold type_mismatch
    rw [h0]
  · intro h0
    unfold context_mismatch
    rw [h0]
  · intro ht
    rw [hstep]
    simp [ht]
  · intro ht hc
    rw [hstep]
    simp [ht, hc]
  · intro ht hc
    rw [hstep]
    simp [ht, hc]

/-- C5 witness: a truthy differing `@type` makes the load fail. -/
theorem load_type_context_check_witness :
    LazyLoadableModel.load emptyCreativeWork "id" cPother
      = .error Err.modelDataError := by
  have h := load_type_context_check emptyCreativeWork "id" cPother
    [("@type", Val.vStr "Other")]
    (ExtractedLdData.mk [] (some (Val.vStr "Other")) none none) rfl rfl rfl
  exact h.2.2.1 rfl

/-- C6: for an entity whose model data is available as `d`, `to_json`
returns a copy of `d` with the key `type` set to the model type and
every other key — in particular any context key — unchanged, and
`to_jsonld` returns a copy of `d` with `@context` set to the model
context, `@type` set to the model type and `@id` set to the empty
string, every other key unchanged. -/
theorem to_json_to_jsonld_shape (e : Entity) (d : Dict)
    (h : EModel.data e.model = .ok d) :
    Entity.to_json e = .ok (setKey d "type" (Val.vStr (EModel.ld_type e.model))) ∧
    getKey (setKey d "type" (Val.vStr (EModel.ld_type e.model))) "type"
      = some (Val.vStr (EModel.ld_type e.model)) ∧
    (∀ k, k ≠ "type" →
      getKey (setKey d "type" (Val.vStr (EModel.ld_type e.model))) k = getKey d k) ∧
    Entity.to_jsonld e
      = .ok (setKey (setKey (setKey d "@context" (EModel.ld_context e.model))
          "@type" (Val.vStr (EModel.ld_type e.model))) "@id" (Val.vStr "")) ∧
    getKey (setKey (setKey (setKey d "@context" (EModel.ld_context e.model))
          "@type" (Val.vStr (EModel.ld_type e.model))) "@id" (Val.vStr "")) "@context"
      = some (EModel.ld_context e.model) ∧
    getKey (setKey (setKey (setKey d "@context" (EModel.ld_context e.model))
          "@type" (Val.vStr (EModel.ld_type e.model))) "@id" (Val.vStr "")) "@type"
      = some (Val.vStr (EModel.ld_type e.model)) ∧
    getKey (setKey (setKey (setKey d "@context" (EModel.ld_context e.model))
          "@type" (Val.vStr (EModel.ld_type e.model))) "@id" (Val.vStr "")) "@id"
      = some (Val.vStr "") ∧
    (∀ k, k ≠ "@context" → k ≠ "@type" → k ≠ "@id" →
      getKey (setKey (setKey (setKey d "@context" (EModel.ld_context e.model))
          "@type" (Val.vStr (EModel.ld_type e.model))) "@id" (Val.vStr "")) k
        = getKey d k) := by
  have hdata : Entity.data e = .ok d := by
    unfold Entity.data
    simp only [h]
  refine ⟨?_, ?_, ?_, ?_, ?_, ?_, ?_, ?_⟩
  · unfold Entity.to_json
    rw [hdata]
    rfl
  · exact getKey_setKey_self d "type" _
  · intro k hk
    exact getKey_setKey_ne d "type" k _ hk
  · unfold Entity.to_jsonld
    rw [hdata]
    rfl
  · rw [getKey_setKey_ne _ "@id" "@context" _ (by decide),
        getKey_setKey_ne _ "@type" "@context" _ (by decide)]
    exact getKey_setKey_self d "@context" _
  · rw [getKey_setKey_ne _ "@id" "@type" _ (by decide)]
    exact getKey_setKey_self _ "@type" _
  · exact getKey_setKey_self _ "@id" _
  · intro k h1 h2 h3
    rw [getKey_setKey_ne _ "@id" k _ h3, getKey_setKey_ne _ "@type" k _ h2,
        getKey_setKey_ne _ "@context" k _ h1]

/-- C6 witness: the concrete Work entity with data `{name: x}`. -/
theorem to_json_to_jsonld_shape_witness :
    Entity.to_json cEnt1 = .ok [("name", Val.vStr "x"), ("type", Val.vStr "CreativeWork")] ∧
    Entity.to_jsonld cEnt1 = .ok [("name", Val.vStr "x"),
      ("@context", get_default_ld_context), ("@type", Val.vStr "CreativeWork"),
      ("@id", Val.vStr "")] := by
  have h := to_json_to_jsonld_shape cEnt1 [("name", Val.vStr "x")] rfl
  exact ⟨h.1, h.2.2.2.1⟩

/-- C8: every Work entity successfully built by `from_data` has model
type `CreativeWork` (any caller-supplied type is overridden by the Work
model factory), and for any validator accepting `{name: Ayy}` the
entity built from that data has data `{name: Ayy}` and serializes with
`to_json` to `{name: Ayy, type: CreativeWork}`. -/
theorem work_ld_type_forced_and_example (P : AbstractPlugin) (v v0 : Dict → Bool)
    (d : Dict) (fmt : DataFormat) (e : Entity)
    (hv : v [("name", Val.vStr "Ayy")] = true)
    (h : Entity.from_data Variant.work v0 d fmt P = .ok e) :
    EModel.ld_type e.model = "CreativeWork" ∧
    (Entity.from_data Variant.work v [("name", Val.vStr "Ayy")] DataFormat.jsonld P).bind
        Entity.data
      = .ok [("name", Val.vStr "Ayy")] ∧
    (Entity.from_data Variant.work v [("name", Val.vStr "Ayy")] DataFormat.jsonld P).bind
        Entity.to_json
      = .ok [("name", Val.vStr "Ayy"), ("type", Val.vStr "CreativeWork")] := by
  have key : Entity.from_data Variant.work v [("name", Val.vStr "Ayy")] DataFormat.jsonld P
      = .ok (Entity.mk (Sum.inl (Model.mk [("name", Val.vStr "Ayy")] "CreativeWork"
          get_default_ld_context v)) P none Variant.work) := by
    show (match Except.map Sum.inl (Model.mk? [("name", Val.vStr "Ayy")]
        (Val.vStr "CreativeWork") none v) with
      | .error err => (.error err : Except Err Entity)
      | .ok model => .ok (Entity.mk model P none Variant.work)) = _
    rw [Model.mk?_valid hv]
    rfl
  have gen : ∀ (dd : Dict) (tt cc : Option Val),
      (match generate_model Variant.work v0 (some dd) tt cc none with
        | .error err => (.error err : Except Err Entity)
        | .ok model => .ok (Entity.mk model P none Variant.work)) = .ok e →
      EModel.ld_type e.model = "CreativeWork" := by
    intro dd tt cc hh
    simp only [generate_model, work_model_factory, _model_factory, Option.getD_none] at hh
    cases hmk : Model.mk? dd (Val.vStr "CreativeWork") cc v0 with
    | error err =>
        rw [hmk] at hh
        exact absurd hh (by simp [Except.map])
    | ok mo =>
        rw [hmk] at hh
        have he : Entity.mk (Sum.inl mo) P none Variant.work = e := by
          simpa [Except.map] using hh
        have hlt : mo.ld_type = "CreativeWork" := by
          by_cases hval : v0 dd = true
          · rw [Model.mk?_valid hval] at hmk
            have hmo : Model.mk dd "CreativeWork" (cc.getD get_default_ld_context) v0 = mo := by
              simpa using hmk
            rw [← hmo]
          · have hfalse : v0 dd = false := by
              cases hb : v0 dd
              · rfl
              · exact absurd hb hval
            have hbad : Model.mk? dd (Val.vStr "CreativeWork") cc v0
                = .error Err.modelDataError := by
              unfold Model.mk?
              rw [hfalse]
              rfl
            rw [hbad] at hmk
            exact absurd hmk (by simp)
        rw [← he]
        exact hlt
  refine ⟨?_, ?_, ?_⟩
  · cases fmt with
    | ipld =>
        unfold Entity.from_data at h
        exact absurd h (by simp)
    | json =>
        unfold Entity.from_data at h
        simp only [_extract_ld_data] at h
        exact gen _ _ _ h
    | jsonld =>
        unfold Entity.from_data at h
        simp only [_extract_ld_data] at h
        exact gen _ _ _ h
  · rw [key]
    rfl
  · rw [key]
    rfl

/-- C8 witness: the always-accepting validator on `{name: Ayy}`. -/
theorem work_ld_type_forced_and_example_witness :
    EModel.ld_type cE8.model = "CreativeWork" ∧
    (Entity.from_data Variant.work always_valid [("name", Val.vStr "Ayy")]
        DataFormat.jsonld cP1).bind Entity.data
      = .ok [("name", Val.vStr "Ayy")] ∧
    (Entity.from_data Variant.work always_valid [("name", Val.vStr "Ayy")]
        DataFormat.jsonld cP1).bind Entity.to_json
      = .ok [("name", Val.vStr "Ayy"), ("type", Val.vStr "CreativeWork")] :=
  work_ld_type_forced_and_example cP1 always_valid always_valid
    [("name", Val.vStr "Ayy")] DataFormat.jsonld cE8 rfl rfl

/-- C9: the Manifestation model-generation step injects
`isManifestation: true` into the model data unconditionally: every
Manifestation entity successfully built by `from_data` carries that
entry, whatever the input data; in particular, from the empty input and
a validator accepting the result, the entity data is exactly
`{isManifestation: true}`. -/
theorem manifestation_injects_unconditionally (P : AbstractPlugin) (v : Dict → Bool)
    (hv : v [("isManifestation", Val.vBool true)] = true) :
    (Entity.from_data Variant.manifestation v [] DataFormat.jsonld P).bind Entity.data
      = .ok [("isManifestation", Val.vBool true)] ∧
    (∀ (v2 : Dict → Bool) (d : Dict) (e : Entity),
      Entity.from_data Variant.manifestation v2 d DataFormat.jsonld P = .ok e →
      ∃ dd, Entity.data e = .ok dd ∧
        getKey dd "isManifestation" = some (Val.vBool true)) := by
  constructor
  · have key : Entity.from_data Variant.manifestation v [] DataFormat.jsonld P
        = .ok (Entity.mk (Sum.inl (Model.mk [("isManifestation", Val.vBool true)]
            "CreativeWork" get_default_ld_context v)) P none Variant.manifestation) := by
      show (match Except.map Sum.inl (Model.mk? [("isManifestation", Val.vBool true)]
          (Val.vStr "CreativeWork") none v) with
        | .error err => (.error err : Except Err Entity)
        | .ok model => .ok (Entity.mk model P none Variant.manifestation)) = _
      rw [Model.mk?_valid hv]
      rfl
    rw [key]
    rfl
  · intro v2 d e hfd
    unfold Entity.from_data at hfd
    simp only [_extract_ld_data] at hfd
    simp only [generate_model, manifestation_model_factory, _model_factory] at hfd
    cases hmk : Model.mk? (extend_dict [("isManifestation", Val.vBool true)]
        (removeKey (removeKey (removeKey d "@type") "@context") "@id"))
        ((getKey d "@type").getD (Val.vStr "CreativeWork")) (getKey d "@context") v2 with
    | error err =>
        rw [hmk] at hfd
        exact absurd hfd (by simp [Except.map])
    | ok mo =>
        rw [hmk] at hfd
        have he : Entity.mk (Sum.inl mo) P none Variant.manifestation = e := by
          simpa [Except.map] using hfd
        have hdata : mo.data = extend_dict [("isManifestation", Val.vBool true)]
            (removeKey (removeKey (removeKey d "@type") "@context") "@id") := by
          unfold Model.mk? at hmk
          split at hmk
          · split at hmk
            · have := (Except.ok.injEq _ _).mp hmk
              rw [← this]
            · exact absurd hmk (by simp)
          · exact absurd hmk (by simp)
        refine ⟨mo.data, ?_, ?_⟩
        · rw [← he]
          rfl
        · rw [hdata]
          exact getKey_extend_dict_base_single _ _ _

/-- C9 witness: the empty input with the always-accepting validator. -/
theorem manifestation_injects_unconditionally_witness :
    (Entity.from_data Variant.manifestation always_valid [] DataFormat.jsonld cP1).bind
        Entity.data
      = .ok [("isManifestation", Val.vBool true)] :=
  (manifestation_injects_unconditionally cP1 always_valid rfl).1

end Coalaip
